import Mathlib

/-!
Verification development for the RDMA transport endpoint
(`src/brpc/rdma/rdma_endpoint.cpp`).

The development shallowly embeds the endpoint logic:

* the private-data wire structs `RdmaConnectRequestData` and
  `RdmaConnectResponseData` are modelled at the byte level, including the
  exact store widths the C++ uses (the code stores the 32-bit fields
  through `uint64_t` pointers, which matters for the out-of-bounds
  analysis).  The host is modelled as little-endian, which is the
  deployment target of the code; `butil::HostToNet32/64` are byte swaps
  there.
* the data path (`CutFromIOBufList`, `DoCutFromIOBufList`,
  `cut_into_sglist_and_iobuf`, `SendImm`, `HandleCompletion`, `PostRecv`)
  is modelled over a block-level picture of `butil::IOBuf`: a buffer is a
  list of backing blocks, each carrying a byte length and the registration
  key that `GetLKey` would report for its memory.  External collaborators
  (verbs posts, the block allocator, `GetRdmaMaxSge`,
  `butil::IOBuf::DEFAULT_PAYLOAD`) are parameters in `RdmaEnv`.
* `CHECK(...)` in the C++ aborts the process; a failed check is modelled
  as `Option.none`.  A `-1` return travels as an explicit result value.
* the handshake byte protocol (`Handshake`, `HandshakeAtServer`) is
  modelled over byte lists, including the uninitialised remainder of the
  stack buffer `tmp` when fewer than `HELLO_LENGTH` bytes are buffered
  (passed in as an arbitrary `junk` function).
-/

set_option maxRecDepth 10000

/-! ## Byte-level model of the connect private data -/

/-- RANDOM_LENGTH from the source: the nonce is 16 bytes. -/
def RANDOM_LENGTH : Nat := 16

/-- MAGIC_LENGTH from the source: the magic string is 4 bytes. -/
def MAGIC_LENGTH : Nat := 4

/-- HELLO_LENGTH from the source: magic plus nonce, 20 bytes. -/
def HELLO_LENGTH : Nat := MAGIC_LENGTH + RANDOM_LENGTH

/-- RESERVED_WR_NUM from the source: reserved WRs in SQ/RQ for pure ACK. -/
def RESERVED_WR_NUM : Nat := 3

/-- MAGIC_STR from the source, the ASCII bytes of the string RDMA. -/
def MAGIC_STR : List Nat := [82, 68, 77, 65]

/-- byteOfNat v i is byte i (little-endian position) of the value v. -/
def byteOfNat (v i : Nat) : Nat := v / 256 ^ i % 256

/-- bswap32 swaps the byte order of a 32-bit value, which is what
butil HostToNet32 and NetToHost32 do on a little-endian host. -/
def bswap32 (x : Nat) : Nat :=
  byteOfNat x 0 * 256 ^ 3 + byteOfNat x 1 * 256 ^ 2 +
  byteOfNat x 2 * 256 + byteOfNat x 3

/-- bswap64 swaps the byte order of a 64-bit value, which is what
butil HostToNet64 and NetToHost64 do on a little-endian host. -/
def bswap64 (x : Nat) : Nat :=
  byteOfNat x 0 * 256 ^ 7 + byteOfNat x 1 * 256 ^ 6 +
  byteOfNat x 2 * 256 ^ 5 + byteOfNat x 3 * 256 ^ 4 +
  byteOfNat x 4 * 256 ^ 3 + byteOfNat x 5 * 256 ^ 2 +
  byteOfNat x 6 * 256 + byteOfNat x 7

/-- store64LE off v is the list of byte writes performed by storing the
64-bit value v through a uint64_t pointer at offset off on a
little-endian host: eight writes at offsets off .. off+7. -/
def store64LE (off v : Nat) : List (Nat × Nat) :=
  (List.range 8).map (fun i => (off + i, byteOfNat v i))

/-- store32LE off v is the list of byte writes performed by storing the
32-bit value v through a uint32_t pointer at offset off on a
little-endian host: four writes at offsets off .. off+3. -/
def store32LE (off v : Nat) : List (Nat × Nat) :=
  (List.range 4).map (fun i => (off + i, byteOfNat v i))

/-- applyWrites replays a list of (offset, byte) stores over a memory. -/
def applyWrites (m : Nat → Nat) : List (Nat × Nat) → Nat → Nat
  | [] => m
  | (o, b) :: ws => applyWrites (fun i => if i = o then b else m i) ws

/-- readLE64 m off loads a 64-bit value at offset off, little-endian. -/
def readLE64 (m : Nat → Nat) (off : Nat) : Nat :=
  m off + m (off + 1) * 256 + m (off + 2) * 256 ^ 2 + m (off + 3) * 256 ^ 3 +
  m (off + 4) * 256 ^ 4 + m (off + 5) * 256 ^ 5 + m (off + 6) * 256 ^ 6 +
  m (off + 7) * 256 ^ 7

/-- readLE32 m off loads a 32-bit value at offset off, little-endian. -/
def readLE32 (m : Nat → Nat) (off : Nat) : Nat :=
  m off + m (off + 1) * 256 + m (off + 2) * 256 ^ 2 + m (off + 3) * 256 ^ 3

/-- RdmaConnectRequestData from the source: sid, 16-byte nonce, and the
advertised rq and sq depths. -/
structure RdmaConnectRequestData where
  sid : Nat
  rand_str : List Nat
  rq_size : Nat
  sq_size : Nat
deriving Repr, DecidableEq

/-- RdmaConnectResponseData from the source: the rq and sq depths the
server advertises back. -/
structure RdmaConnectResponseData where
  rq_size : Nat
  sq_size : Nat
deriving Repr, DecidableEq

/-- Length of RdmaConnectRequestData: sizeof(sid) + sizeof(rand_str) +
sizeof(rq_size) + sizeof(sq_size) = 8 + 16 + 4 + 4. -/
def requestLength : Nat := 8 + RANDOM_LENGTH + 4 + 4

/-- Length of RdmaConnectResponseData: sizeof(rq_size) + sizeof(sq_size). -/
def responseLength : Nat := 4 + 4

/-- Serialize of RdmaConnectRequestData as the exact byte-store trace of
the C++ on a little-endian host.  Note the two 32-bit fields are stored
through uint64_t pointers, exactly as in the source: an 8-byte store of
the zero-extended HostToNet32 result at offsets 24 and 28. -/
def serializeRequestWrites (r : RdmaConnectRequestData) : List (Nat × Nat) :=
  store64LE 0 (bswap64 r.sid)
    ++ (List.range RANDOM_LENGTH).map (fun i => (8 + i, r.rand_str.getD i 0))
    ++ store64LE (8 + RANDOM_LENGTH) (bswap32 r.rq_size)
    ++ store64LE (requestLength - 4) (bswap32 r.sq_size)

/-- Deserialize of RdmaConnectRequestData from the source: a 64-bit
big-endian load at 0, the nonce at 8, and 32-bit big-endian loads at
offsets 24 and 28. -/
def deserializeRequest (m : Nat → Nat) : RdmaConnectRequestData :=
  { sid := bswap64 (readLE64 m 0)
    rand_str := (List.range RANDOM_LENGTH).map (fun i => m (8 + i))
    rq_size := bswap32 (readLE32 m (8 + RANDOM_LENGTH))
    sq_size := bswap32 (readLE32 m (8 + RANDOM_LENGTH + 4)) }

/-- Serialize of RdmaConnectResponseData as the exact byte-store trace of
the C++ on a little-endian host: a 32-bit store of HostToNet32(rq_size)
at offset 0, then an 8-byte store of the zero-extended
HostToNet32(sq_size) through a uint64_t pointer at offset 4. -/
def serializeResponseWrites (r : RdmaConnectResponseData) : List (Nat × Nat) :=
  store32LE 0 (bswap32 r.rq_size) ++ store64LE 4 (bswap32 r.sq_size)

/-- Deserialize of RdmaConnectResponseData from the source: 32-bit
big-endian loads at offsets 0 and 4. -/
def deserializeResponse (m : Nat → Nat) : RdmaConnectResponseData :=
  { rq_size := bswap32 (readLE32 m 0)
    sq_size := bswap32 (readLE32 m 4) }

/-! ## Block-level model of butil IOBuf

Modelled from the spec: the send engine sees an application byte buffer
as its list of backing blocks (spec section 9, friendship with the
byte-buffer type: iterate backing blocks, cut the first N bytes into
another buffer).  A block carries its byte length and the registration
key `GetLKey` reports for its memory (0 when unregistered). -/

structure MemBlock where
  len : Nat
  lkey : Nat
deriving Repr, DecidableEq

/-- An IOBuf is its list of backing blocks. -/
abbrev IOBuf := List MemBlock

/-- bufSize is IOBuf::size(), the total byte length. -/
def bufSize (b : IOBuf) : Nat := (b.map MemBlock.len).sum

/-- bufsSize is the total byte length of a list of IOBufs. -/
def bufsSize (l : List IOBuf) : Nat := (l.map bufSize).sum

/-- cutn models butil IOBuf cutn: split off the first n bytes.
Modelled from the spec (section 9): cut the first N bytes of a buffer
into another buffer, splitting a backing block when the boundary falls
inside it.  Returns (cut part, remainder). -/
def cutn : IOBuf → Nat → IOBuf × IOBuf
  | [], _ => ([], [])
  | b :: bs, n =>
    if n = 0 then ([], b :: bs)
    else if b.len ≤ n then
      let r := cutn bs (n - b.len)
      (b :: r.1, r.2)
    else ([⟨n, b.lkey⟩], ⟨b.len - n, b.lkey⟩ :: bs)

/-! ## Environment of external collaborators -/

/-- RdmaEnv gathers the external collaborators of the endpoint:
the device limit `GetRdmaMaxSge`, the fixed block payload size
`butil::IOBuf::DEFAULT_PAYLOAD`, the registration key of blocks handed
out by the registered block pool (`GetLKey` on a fresh block), whether
allocation of a fresh block succeeds, whether `ibv_post_send` and
`ibv_post_recv` succeed, and the `rdma_recv_zerocopy` flag. -/
structure RdmaEnv where
  max_sge : Nat
  payload : Nat
  poolLkey : Nat
  allocOk : Bool
  postSendOk : Bool
  postRecvOk : Bool
  zerocopy : Bool
deriving Repr, DecidableEq

/-! ## cut_into_sglist_and_iobuf -/

/-- ScanRes is the outcome of walking the backing blocks of one buffer
inside cut_into_sglist_and_iobuf: either the loop finished having
gathered `len` bytes (with the current shared lkey), or it hit an
unregistered first block of the given length and must take the copy
path. -/
inductive ScanRes where
  | done (len lkey : Nat)
  | copyReq (firstBlockLen : Nat)
deriving Repr, DecidableEq

/-- cutScan is the for-loop of cut_into_sglist_and_iobuf: walk at most
`sges` blocks accumulating `len` bytes, stopping at max_len, at an lkey
mismatch, or when a full block would have to be split across WRs.
`payload` is butil::IOBuf::DEFAULT_PAYLOAD. -/
def cutScan (payload : Nat) : IOBuf → Nat → Nat → Nat → Nat → ScanRes
  | [], _, len, _, lk => .done len lk
  | _ :: _, 0, len, _, lk => .done len lk
  | b :: bs, s + 1, len, maxLen, lk =>
    if len = maxLen then .done len lk
    else if lk ≠ 0 ∧ b.lkey ≠ lk then .done len lk
    else
      let lk2 := if lk = 0 then b.lkey else lk
      if lk2 = 0 then .copyReq b.len
      else if len + b.len > maxLen then
        if b.len ≤ payload then .done len lk2
        else .done maxLen lk2
      else cutScan payload bs s (len + b.len) maxLen lk2

/-- CutIntoRes is the result of cut_into_sglist_and_iobuf: the returned
byte count with the updated source buffer, destination buffer and shared
lkey, or the -1 error (carrying the buffer state at the failure). -/
inductive CutIntoRes where
  | ok (len : Nat) (buf toBuf : IOBuf) (lkey : Nat)
  | fail (buf toBuf : IOBuf) (lkey : Nat)
deriving Repr, DecidableEq

/-- cut_into_sglist_and_iobuf from the source (RdmaIOBuf).  The fuel
bounds the recursion depth of the unregistered-block copy path; the C++
recursion terminates at depth two whenever the block pool hands out
registered memory, and otherwise never terminates, which is modelled as
`none`.  In the copy path, `tmp.append` copies at most
min(first block, max_len, DEFAULT_PAYLOAD) bytes into one fresh pool
block; on the recursive -1 the C++ passes the negative length to
`cutn`, which as a size_t drains the whole source buffer. -/
def cut_into_sglist_and_iobuf (env : RdmaEnv) :
    Nat → IOBuf → IOBuf → Nat → Nat → Nat → Option CutIntoRes
  | 0, _, _, _, _, _ => none
  | fuel + 1, buf, toBuf, max_sge, max_len, lkey =>
    match cutScan env.payload buf max_sge 0 max_len lkey with
    | .done len lk2 =>
      let c := cutn buf len
      some (.ok len c.2 (toBuf ++ c.1) lk2)
    | .copyReq blen =>
      if ¬ env.allocOk then some (.fail buf toBuf lkey)
      else
        let append_len := min (min blen max_len) env.payload
        let tmp : IOBuf := [⟨append_len, env.poolLkey⟩]
        match cut_into_sglist_and_iobuf env fuel tmp toBuf max_sge append_len lkey with
        | none => none
        | some (.ok len _ toBuf2 lk2) => some (.ok len (cutn buf len).2 toBuf2 lk2)
        | some (.fail _ toBuf2 lk2) => some (.fail (cutn buf (bufSize buf)).2 toBuf2 lk2)

/-! ## Endpoint state -/

/-- EpStatus is the handshake FSM state enum of RdmaEndpoint. -/
inductive EpStatus where
  | UNINITIALIZED
  | HELLO_C
  | HELLO_S
  | ADDR_RESOLVING
  | ROUTE_RESOLVING
  | CONNECTING
  | ACCEPTING
  | ESTABLISHED
deriving Repr, DecidableEq

/-- RdmaEndpoint models the per-connection endpoint state.  Buffers are
kept at the block level; read_buf_size tracks only the byte count that
reached the socket read buffer on the data path.  rdma_on mirrors the
owning socket rdma_state being RDMA_ON. -/
structure RdmaEndpoint where
  status : EpStatus
  sq_size : Nat
  rq_size : Nat
  local_window_capacity : Nat
  remote_window_capacity : Nat
  window_size : Nat
  sq_current : Nat
  sq_sent : Nat
  rq_received : Nat
  sq_unsignaled : Nat
  unsolicited : Nat
  accumulated_ack : Nat
  new_rq_wrs : Nat
  sbuf : List IOBuf
  rbuf : List IOBuf
  read_buf_size : Nat
  rand_str : List Nat
  hasRcm : Bool
  remote_sid : Nat
  rdma_on : Bool
deriving Repr, DecidableEq

/-- mkEndpoint is the RdmaEndpoint constructor, parameterised over the
ring depths computed from the configured byte budgets
(FLAGS_rdma_sbuf_size / DEFAULT_PAYLOAD + 1 and likewise for the recv
side).  Both depths and the matching window capacities floor to 16. -/
def mkEndpoint (sq rq : Nat) : RdmaEndpoint :=
  let sq2 := if sq < 16 then 16 else sq
  let rq2 := if rq < 16 then 16 else rq
  { status := .UNINITIALIZED
    sq_size := sq2
    rq_size := rq2
    local_window_capacity := sq2
    remote_window_capacity := rq2
    window_size := sq2
    sq_current := 0
    sq_sent := 0
    rq_received := 0
    sq_unsignaled := 0
    unsolicited := 0
    accumulated_ack := 0
    new_rq_wrs := 0
    sbuf := []
    rbuf := []
    read_buf_size := 0
    rand_str := List.replicate RANDOM_LENGTH 0
    hasRcm := false
    remote_sid := 0
    rdma_on := false }

/-- allocateResources models AllocateResources on the buffer rings: the
send ring is resized to sq_size empty slots and the recv ring to
rq_size + RESERVED_WR_NUM slots, after which PostRecv pre-posts every
recv slot with one fresh pool block of DEFAULT_PAYLOAD bytes and
rq_received wraps back to 0. -/
def allocateResources (env : RdmaEnv) (ep : RdmaEndpoint) : RdmaEndpoint :=
  { ep with
    sbuf := List.replicate ep.sq_size []
    rbuf := List.replicate (ep.rq_size + RESERVED_WR_NUM)
      [⟨env.payload, env.poolLkey⟩]
    rq_received := 0 }

/-- connectingApply is the CONNECTING arm of HandshakeAtClient after the
RdmaConnectResponse has been parsed: shrink local_window_capacity and
window_size when the peer rq is smaller than our sq, shrink
remote_window_capacity when the peer sq is smaller than our rq, then
mark the endpoint established. -/
def connectingApply (ep : RdmaEndpoint) (res : RdmaConnectResponseData) :
    RdmaEndpoint :=
  let ep1 :=
    if res.rq_size < ep.sq_size then
      { ep with local_window_capacity := res.rq_size, window_size := res.rq_size }
    else ep
  let ep2 :=
    if res.sq_size < ep1.rq_size then
      { ep1 with remote_window_capacity := res.sq_size }
    else ep1
  { ep2 with status := .ESTABLISHED, rdma_on := true }

/-- acceptApply is the window negotiation of InitializeFromAccept: shrink
local_window_capacity and window_size when the requester rq is smaller
than our sq, shrink remote_window_capacity when the requester sq is
smaller than our rq. -/
def acceptApply (ep : RdmaEndpoint) (req : RdmaConnectRequestData) :
    RdmaEndpoint :=
  let ep1 :=
    if ep.sq_size > req.rq_size then
      { ep with local_window_capacity := req.rq_size, window_size := req.rq_size }
    else ep
  if ep1.rq_size > req.sq_size then
    { ep1 with remote_window_capacity := req.sq_size }
  else ep1

/-- establishedClient is the endpoint state of a client right after its
handshake reached ESTABLISHED: construct, allocate the rings, then apply
the window negotiation against the response advertising the peer rq and
sq depths. -/
def establishedClient (env : RdmaEnv) (sq rq prq psq : Nat) : RdmaEndpoint :=
  connectingApply (allocateResources env (mkEndpoint sq rq)) ⟨prq, psq⟩

/-! ## DoCutFromIOBufList -/

/-- SendWR is the work request built by DoCutFromIOBufList: the logical
immediate value (stored big-endian on the wire), the SGE count, the
total payload length and the three flags. -/
structure SendWR where
  imm : Nat
  num_sge : Nat
  total_len : Nat
  inlined : Bool
  solicited : Bool
  signaled : Bool
deriving Repr, DecidableEq, Inhabited

/-- LoopSt is the state of the while loop of DoCutFromIOBufList: the
application buffers, the index of the current buffer, the destination
slot, the accumulated length, the SGE index and the shared lkey. -/
structure LoopSt where
  bufs : List IOBuf
  current : Nat
  toBuf : IOBuf
  total_len : Nat
  sge_index : Nat
  lkey : Nat
deriving Repr, DecidableEq

/-- LoopRes is how the while loop of DoCutFromIOBufList ends: normal
exit, or exit through the -1 of cut_into_sglist_and_iobuf. -/
inductive LoopRes where
  | ok (st : LoopSt)
  | fail (st : LoopSt)
deriving Repr, DecidableEq

/-- docutLoop is the while loop of DoCutFromIOBufList: as long as SGE
slots remain and the payload cap is not reached, skip exhausted buffers
(stopping at the end of the list) and cut from the current buffer,
stopping when a cut makes no progress. -/
def docutLoop (env : RdmaEnv) : Nat → LoopSt → Option LoopRes
  | 0, _ => none
  | fuel + 1, st =>
    if st.sge_index < env.max_sge ∧ st.total_len < env.payload then
      let data := st.bufs.getD st.current []
      if bufSize data = 0 then
        if st.current + 1 = st.bufs.length then some (.ok { st with current := st.current + 1 })
        else docutLoop env fuel { st with current := st.current + 1 }
      else
        match cut_into_sglist_and_iobuf env 3 data st.toBuf
            (env.max_sge - st.sge_index) (env.payload - st.total_len) st.lkey with
        | none => none
        | some (.fail buf2 toBuf2 lk2) =>
          some (.fail { st with bufs := st.bufs.set st.current buf2,
                                toBuf := toBuf2, lkey := lk2 })
        | some (.ok len buf2 toBuf2 lk2) =>
          if len = 0 then some (.ok { st with lkey := lk2 })
          else docutLoop env fuel
            { st with bufs := st.bufs.set st.current buf2, toBuf := toBuf2,
                      total_len := st.total_len + len, sge_index := toBuf2.length,
                      lkey := lk2 }
    else some (.ok st)

/-- finishWR is the flag section of DoCutFromIOBufList after the cutting
loop: decide SOLICITED (message boundary finished, or the unsolicited or
accumulated-ack counters crossed their quarter-window thresholds, both
counters being reset when it fires), decide SIGNALED (sq_unsignaled
reached local_window_capacity / 4, then reset), decide INLINE
(payload at most 64 bytes), and update the three counters. -/
def finishWR (ep : RdmaEndpoint) (st : LoopSt) (imm : Nat) :
    SendWR × RdmaEndpoint :=
  let msgDone := 0 < st.current ∨ bufSize (st.bufs.getD st.current []) = 0
  let uns1 := if msgDone then ep.unsolicited else ep.unsolicited + 1
  let acc1 := if msgDone then ep.accumulated_ack else ep.accumulated_ack + imm
  let solicited : Bool :=
    decide msgDone || decide (uns1 > ep.local_window_capacity / 4) ||
      decide (acc1 > ep.remote_window_capacity / 4)
  let uns2 := if solicited then 0 else uns1
  let acc2 := if solicited then 0 else acc1
  let signaled : Bool := decide (ep.sq_unsignaled + 1 ≥ ep.local_window_capacity / 4)
  let unsig2 := if signaled then 0 else ep.sq_unsignaled + 1
  ({ imm := imm
     num_sge := st.sge_index
     total_len := st.total_len
     inlined := decide (st.total_len ≤ 64)
     solicited := solicited
     signaled := signaled },
   { ep with unsolicited := uns2, accumulated_ack := acc2, sq_unsignaled := unsig2 })

/-- DoCutRes is the outcome of DoCutFromIOBufList: ret is some total_len
or none for -1; posted is the work request when ibv_post_send accepted
one; bufs and slot are the application buffers and the destination slot
after the cutting loop. -/
structure DoCutRes where
  ret : Option Nat
  ep : RdmaEndpoint
  bufs : List IOBuf
  slot : IOBuf
  posted : Option SendWR
deriving Repr, DecidableEq

/-- DoCutFromIOBufList from the source: run the cutting loop into the
destination slot, build the work request flags, and post it.  The
counter updates of the flag section happen before the post, so they
survive a post failure.  CHECK(ndata > 0) is modelled as none on an
empty list. -/
def DoCutFromIOBufList (env : RdmaEnv) (ep : RdmaEndpoint)
    (bufs : List IOBuf) (imm : Nat) : Option DoCutRes :=
  if bufs.length = 0 then none
  else
    match docutLoop env (bufs.length + env.payload + 2) ⟨bufs, 0, [], 0, 0, 0⟩ with
    | none => none
    | some (.fail st) => some ⟨none, ep, st.bufs, st.toBuf, none⟩
    | some (.ok st) =>
      let p := finishWR ep st imm
      if env.postSendOk then some ⟨some st.total_len, p.2, st.bufs, st.toBuf, some p.1⟩
      else some ⟨none, p.2, st.bufs, st.toBuf, none⟩

/-! ## CutFromIOBufList -/

/-- CutRes is the return value of CutFromIOBufList: -1 with EAGAIN when
the window is empty, -1 on a fatal error, or the byte count moved. -/
inductive CutRes where
  | eagain
  | fatal
  | ok (n : Nat)
deriving Repr, DecidableEq

/-- CutFromIOBufList from the source: fail with EAGAIN when window_size
is 0; otherwise check the target slot is empty, swap new_rq_wrs to 0
into the immediate, run DoCutFromIOBufList into sbuf[sq_current], then
advance sq_current modulo sq_size and decrement window_size regardless
of the DoCutFromIOBufList result. -/
def CutFromIOBufList (env : RdmaEnv) (ep : RdmaEndpoint) (bufs : List IOBuf) :
    Option (CutRes × RdmaEndpoint × List IOBuf) :=
  if ep.window_size = 0 then some (.eagain, ep, bufs)
  else
    match ep.sbuf.get? ep.sq_current with
    | none => none
    | some slot =>
      if bufSize slot ≠ 0 then none
      else
        let imm := ep.new_rq_wrs
        let ep0 := { ep with new_rq_wrs := 0 }
        match DoCutFromIOBufList env ep0 bufs imm with
        | none => none
        | some r =>
          let ep1 := { r.ep with sbuf := r.ep.sbuf.set r.ep.sq_current r.slot }
          let sq2 := if ep1.sq_current + 1 = ep1.sq_size then 0 else ep1.sq_current + 1
          let ep2 := { ep1 with sq_current := sq2, window_size := ep1.window_size - 1 }
          some ((match r.ret with | none => .fatal | some n => .ok n), ep2, r.bufs)

/-! ## HandleCompletion -/

/-- SendImm from the source: skip a zero credit, otherwise post a
zero-SGE RDMA_WRITE_WITH_IMM carrying the credit (always solicited and
signaled).  The first component is the return value (0 or -1), the
second the list of immediates a post was attempted for. -/
def SendImm (env : RdmaEnv) (imm : Nat) : Int × List Nat :=
  if imm = 0 then (0, [])
  else if env.postSendOk then (0, [imm]) else (-1, [imm])

/-- clearAckLoop is the credit loop of HandleCompletion: for each credit
unit, CHECK the slot at sq_sent is non-empty (none on violation), clear
it and advance sq_sent modulo sq_size. -/
def clearAckLoop : Nat → RdmaEndpoint → Option RdmaEndpoint
  | 0, ep => some ep
  | n + 1, ep =>
    match ep.sbuf.get? ep.sq_sent with
    | none => none
    | some s =>
      if bufSize s = 0 then none
      else
        let sq2 := if ep.sq_sent + 1 = ep.sq_size then 0 else ep.sq_sent + 1
        clearAckLoop n { ep with sbuf := ep.sbuf.set ep.sq_sent [], sq_sent := sq2 }

/-- postRecvOnce is PostRecv(1) from the source: refresh the recv slot
at rq_received (allocating a fresh pool block under zerocopy or when the
slot is empty; none models the -1 of an allocation or ibv_post_recv
failure), then advance rq_received modulo rq_size + RESERVED_WR_NUM. -/
def postRecvOnce (env : RdmaEnv) (ep : RdmaEndpoint) : Option RdmaEndpoint :=
  match ep.rbuf.get? ep.rq_received with
  | none => none
  | some slot =>
    let prep : Option IOBuf :=
      if env.zerocopy || decide (bufSize slot = 0) then
        if env.allocOk then some [⟨env.payload, env.poolLkey⟩] else none
      else some slot
    match prep with
    | none => none
    | some slot2 =>
      if ¬ env.postRecvOk then none
      else
        let rq2 := if ep.rq_received + 1 = ep.rq_size + RESERVED_WR_NUM then 0
                   else ep.rq_received + 1
        some { ep with rbuf := ep.rbuf.set ep.rq_received slot2, rq_received := rq2 }

/-- CompType is the completion flavour enum (RdmaCompletionType). -/
inductive CompType where
  | cwrite
  | csend
  | crecv
  | crecvImm
  | cerror
deriving Repr, DecidableEq

/-- RdmaCompletion carries the completion flavour, byte length and
immediate value. -/
structure RdmaCompletion where
  ctype : CompType
  len : Nat
  imm : Nat
deriving Repr, DecidableEq

/-- HCOut is the outcome of HandleCompletion: ret is some byte count or
none for -1, acks lists the immediates of pure-ACK sends attempted via
SendImm, woke records a WakeAsEpollOut on the 0 to positive window
transition. -/
structure HCOut where
  ret : Option Nat
  ep : RdmaEndpoint
  acks : List Nat
  woke : Bool
deriving Repr, DecidableEq

/-- recvImmTail is the shared tail of the RECV and RECV_WITH_IMM arms of
HandleCompletion: consume the immediate as credits (clearing in-flight
send slots, then adding to window_size and waking a writer that saw 0),
re-post one recv WR, and when the completion carried data, bump
new_rq_wrs and emit a pure ACK once the previous value exceeded
remote_window_capacity / 2 (swapping new_rq_wrs back to 0). -/
def recvImmTail (env : RdmaEnv) (ep : RdmaEndpoint) (rc : RdmaCompletion) :
    Option HCOut :=
  let step1 : Option (RdmaEndpoint × Bool) :=
    if 0 < rc.imm then
      match clearAckLoop rc.imm ep with
      | none => none
      | some ep1 =>
        let woke := decide (ep1.window_size = 0)
        some ({ ep1 with window_size := ep1.window_size + rc.imm }, woke)
    else some (ep, false)
  match step1 with
  | none => none
  | some (ep1, woke) =>
    match postRecvOnce env ep1 with
    | none => some ⟨none, ep1, [], woke⟩
    | some ep2 =>
      if 0 < rc.len then
        let old := ep2.new_rq_wrs
        let ep3 := { ep2 with new_rq_wrs := old + 1 }
        if old > ep3.remote_window_capacity / 2 then
          let v := ep3.new_rq_wrs
          let ep4 := { ep3 with new_rq_wrs := 0 }
          some ⟨some rc.len, ep4, (SendImm env v).2, woke⟩
        else some ⟨some rc.len, ep3, [], woke⟩
      else some ⟨some rc.len, ep2, [], woke⟩

/-- HandleCompletion from the source: mark the socket RDMA_ON, do
nothing for send and write completions, deliver received bytes to the
socket read buffer for data completions (zero-copy cut or copy-out) and
fall through to the ACK tail, and return -1 for error completions.
CHECK(rc.len > 0) on a data completion is modelled as none. -/
def HandleCompletion (env : RdmaEnv) (ep0 : RdmaEndpoint)
    (rc : RdmaCompletion) : Option HCOut :=
  let ep := { ep0 with rdma_on := true }
  match rc.ctype with
  | .cwrite => some ⟨some 0, ep, [], false⟩
  | .csend => some ⟨some 0, ep, [], false⟩
  | .crecv =>
    if rc.len = 0 then none
    else
      match ep.rbuf.get? ep.rq_received with
      | none => none
      | some slot =>
        let ep1 :=
          if env.zerocopy then
            let c := cutn slot rc.len
            { ep with rbuf := ep.rbuf.set ep.rq_received c.2,
                      read_buf_size := ep.read_buf_size + bufSize c.1 }
          else { ep with read_buf_size := ep.read_buf_size + rc.len }
        recvImmTail env ep1 rc
  | .crecvImm => recvImmTail env ep rc
  | .cerror => some ⟨none, ep, [], false⟩

/-- runComps folds HandleCompletion over a completion list, collecting
the pure-ACK immediates, and stops (none) at an abort or a -1. -/
def runComps (env : RdmaEnv) : RdmaEndpoint → List RdmaCompletion →
    Option (RdmaEndpoint × List Nat)
  | ep, [] => some (ep, [])
  | ep, rc :: rcs =>
    match HandleCompletion env ep rc with
    | none => none
    | some o =>
      match o.ret with
      | none => none
      | some _ =>
        match runComps env o.ep rcs with
        | none => none
        | some (ep2, acks) => some (ep2, o.acks ++ acks)

/-- runDoCut folds DoCutFromIOBufList over a list of (buffer list,
immediate) inputs, collecting the posted work requests, and stops
(none) at an abort or a failed post. -/
def runDoCut (env : RdmaEnv) : RdmaEndpoint → List (List IOBuf × Nat) →
    Option (RdmaEndpoint × List SendWR)
  | ep, [] => some (ep, [])
  | ep, (bufs, imm) :: rest =>
    match DoCutFromIOBufList env ep bufs imm with
    | none => none
    | some r =>
      match r.posted with
      | none => none
      | some wr =>
        match runDoCut env r.ep rest with
        | none => none
        | some (ep2, wrs) => some (ep2, wr :: wrs)

/-! ## Handshake over the byte socket (server side) -/

/-- RdmaState mirrors Socket rdma_state. -/
inductive RdmaState where
  | unknown
  | rdmaOn
  | rdmaOff
deriving Repr, DecidableEq

/-- HsRet is the tick return value of the handshake: a positive byte
count now available in the socket read buffer, peer closed, a retry
indication (-1 with EAGAIN or EINTR), -1 with EPROTO, or another -1. -/
inductive HsRet where
  | bytes (n : Nat)
  | closed
  | retry
  | errProto
  | errFatal
deriving Repr, DecidableEq

/-- CMEvent mirrors RdmaCMEvent for the arms the claims exercise. -/
inductive CMEvent where
  | cmNone
  | cmAccept
  | cmEstablished
  | cmDisconnect
deriving Repr, DecidableEq

/-- HsState is the handshake-relevant state: the FSM status, the
handshake buffer and socket read buffer as byte lists, the socket
rdma_state, the captured nonce and whether the internal pipe is open. -/
structure HsState where
  status : EpStatus
  hs_buf : List Nat
  read_buf : List Nat
  rdma_state : RdmaState
  rand_str : List Nat
  pipeOpen : Bool
deriving Repr, DecidableEq

/-- HsEnv holds the external outcomes of the server hello processing:
whether InitPipe succeeds and whether the sid write on the byte socket
succeeds. -/
structure HsEnv where
  pipeInitOk : Bool
  writeOk : Bool
deriving Repr, DecidableEq

/-- handshakeAtServerUninit is the UNINITIALIZED arm of
HandshakeAtServer.  copy_to fills the 20-byte stack buffer tmp only
with the bytes actually buffered; the remainder keeps the uninitialised
stack contents, modelled by junk.  On a magic mismatch the whole
handshake buffer is appended to the socket read buffer, the buffer is
cleared, rdma_state is set to RDMA_OFF and the read buffer size is
returned.  On a match the nonce is captured from tmp, the pipe is
opened, the buffer cleared, the status moves to HELLO_S, the sid is
written back, and the tick ends with the EINTR retry indication. -/
def handshakeAtServerUninit (henv : HsEnv) (st : HsState) (junk : Nat → Nat) :
    HsRet × HsState :=
  let tmp : Nat → Nat := fun i => if i < st.hs_buf.length then st.hs_buf.getD i 0 else junk i
  if (List.range MAGIC_LENGTH).map tmp ≠ MAGIC_STR then
    let rb := st.read_buf ++ st.hs_buf
    (.bytes rb.length, { st with read_buf := rb, hs_buf := [], rdma_state := .rdmaOff })
  else
    let nonce := (List.range RANDOM_LENGTH).map (fun i => tmp (MAGIC_LENGTH + i))
    let st1 := { st with rand_str := nonce }
    if ¬ henv.pipeInitOk then (.errFatal, st1)
    else
      let st2 := { st1 with pipeOpen := true, hs_buf := [], status := .HELLO_S }
      if ¬ henv.writeOk then (.errFatal, st2)
      else (.retry, st2)

/-- handshakeAtServerTickUninit adds the event guard of the
UNINITIALIZED case: any pending CM event is a protocol violation. -/
def handshakeAtServerTickUninit (henv : HsEnv) (event : CMEvent)
    (st : HsState) (junk : Nat → Nat) : HsRet × HsState :=
  if event ≠ .cmNone then (.errProto, st)
  else handshakeAtServerUninit henv st junk

/-- handshakeTickServer is one Handshake tick on the server in state
UNINITIALIZED: append_from_file_descriptor reads at most
max(HELLO_LENGTH, sizeof(SocketId)) = 20 bytes of what is currently
readable (avail) into the handshake buffer, the read loop then breaks
unconditionally, and with a positive read count the tick goes straight
to HandshakeAtServer with no CM event.  An empty avail stands for the
EAGAIN path whose CM and pipe inputs are external and not exercised by
the claims. -/
def handshakeTickServer (henv : HsEnv) (avail : List Nat) (st : HsState)
    (junk : Nat → Nat) : HsRet × HsState :=
  let chunk := avail.take HELLO_LENGTH
  if chunk.length = 0 then (.errFatal, st)
  else
    let st1 := { st with hs_buf := st.hs_buf ++ chunk }
    handshakeAtServerTickUninit henv .cmNone st1 junk

/-! ## InitializeFromAccept -/

/-- SocketObj is the slice of Socket visible to InitializeFromAccept:
the bound RdmaEndpoint, if any, and whether SetFailed has been called. -/
structure SocketObj where
  ep : Option RdmaEndpoint
  failed : Bool
deriving Repr, DecidableEq

/-- AcceptEnv holds the external outcomes inside InitializeFromAccept:
whether the dispatcher AddConsumer call succeeds and whether the wakeup
byte write on the pipe succeeds. -/
structure AcceptEnv where
  dispatcherOk : Bool
  pipeWriteOk : Bool
deriving Repr, DecidableEq

/-- AcceptOut is the outcome of InitializeFromAccept: the return value,
the state of the targeted socket afterwards (none when the sid resolved
to no socket), and whether SetFailed was called on it. -/
structure AcceptOut where
  ret : Int
  sock : Option SocketObj
  setFailed : Bool
deriving Repr, DecidableEq

/-- reqOfBytes parses the accept private data bytes. -/
def reqOfBytes (bytes : List Nat) : RdmaConnectRequestData :=
  deserializeRequest (fun i => bytes.getD i 0)

/-- InitializeFromAccept from the source: reject null or empty private
data; deserialize; reject when the sid resolves to no socket, when the
socket has no RDMA endpoint, when the nonce does not match the one
captured at the hello, or when the endpoint already has a CM bound,
all without touching the endpoint and without SetFailed.  Otherwise
bind the CM; a dispatcher subscription failure calls SetFailed; then
apply the window negotiation and write the wakeup byte to the pipe. -/
def InitializeFromAccept (aenv : AcceptEnv) (sockets : Nat → Option SocketObj)
    (data : Option (List Nat)) (len : Nat) : AcceptOut :=
  match data with
  | none => ⟨-1, none, false⟩
  | some bytes =>
    if len = 0 then ⟨-1, none, false⟩
    else
      let req := reqOfBytes bytes
      match sockets req.sid with
      | none => ⟨-1, none, false⟩
      | some s =>
        match s.ep with
        | none => ⟨-1, some s, false⟩
        | some ep =>
          if ep.rand_str ≠ req.rand_str then ⟨-1, some s, false⟩
          else if ep.hasRcm then ⟨-1, some s, false⟩
          else
            let ep1 := { ep with hasRcm := true }
            if ¬ aenv.dispatcherOk then
              ⟨-1, some { s with ep := some ep1, failed := true }, true⟩
            else
              let ep2 := acceptApply ep1 req
              if aenv.pipeWriteOk then ⟨0, some { s with ep := some ep2 }, false⟩
              else ⟨-1, some { s with ep := some ep2 }, false⟩

/-! ## Size accounting lemmas for the cutting path -/

theorem bufSize_nil : bufSize [] = 0 := rfl

theorem bufSize_cons (b : MemBlock) (l : IOBuf) :
    bufSize (b :: l) = b.len + bufSize l := by
  simp [bufSize]

theorem bufSize_append (a b : IOBuf) :
    bufSize (a ++ b) = bufSize a + bufSize b := by
  simp [bufSize]

theorem cutn_sizes : ∀ (l : IOBuf) (n : Nat),
    bufSize (cutn l n).1 = min n (bufSize l) ∧
    bufSize (cutn l n).2 = bufSize l - n
  | [], n => by simp [cutn, bufSize]
  | b :: bs, n => by
    by_cases h0 : n = 0
    · subst h0; simp [cutn, bufSize]
    · by_cases hle : b.len ≤ n
      · have ih := cutn_sizes bs (n - b.len)
        simp only [cutn, if_neg h0, if_pos hle, bufSize_cons]
        constructor
        · omega
        · omega
      · simp only [cutn, if_neg h0, if_neg hle, bufSize_cons]
        constructor
        · simp [bufSize]; omega
        · simp [bufSize]; omega

theorem cutScan_done_le (payload : Nat) : ∀ (l : IOBuf) (s len maxLen lk len2 lk2 : Nat),
    cutScan payload l s len maxLen lk = .done len2 lk2 → len2 ≤ len + bufSize l
  | [], s, len, maxLen, lk, len2, lk2 => by
    intro h
    simp only [cutScan] at h
    cases h
    omega
  | b :: bs, 0, len, maxLen, lk, len2, lk2 => by
    intro h
    simp only [cutScan] at h
    cases h
    omega
  | b :: bs, s + 1, len, maxLen, lk, len2, lk2 => by
    intro h
    simp only [cutScan] at h
    by_cases h1 : len = maxLen
    · rw [if_pos h1] at h; cases h; omega
    · rw [if_neg h1] at h
      by_cases h2 : lk ≠ 0 ∧ b.lkey ≠ lk
      · rw [if_pos h2] at h; cases h; omega
      · rw [if_neg h2] at h
        by_cases h3 : (if lk = 0 then b.lkey else lk) = 0
        · rw [if_pos h3] at h; cases h
        · rw [if_neg h3] at h
          by_cases h4 : len + b.len > maxLen
          · rw [if_pos h4] at h
            by_cases h5 : b.len ≤ payload
            · rw [if_pos h5] at h; cases h; omega
            · rw [if_neg h5] at h
              cases h
              simp only [bufSize_cons]
              omega
          · rw [if_neg h4] at h
            have := cutScan_done_le payload bs s (len + b.len) maxLen _ len2 lk2 h
            simp only [bufSize_cons]
            omega

theorem cutScan_copy_le (payload : Nat) : ∀ (l : IOBuf) (s len maxLen lk blen : Nat),
    cutScan payload l s len maxLen lk = .copyReq blen → blen ≤ bufSize l
  | [], s, len, maxLen, lk, blen => by
    intro h; simp only [cutScan] at h; cases h
  | b :: bs, 0, len, maxLen, lk, blen => by
    intro h; simp only [cutScan] at h; cases h
  | b :: bs, s + 1, len, maxLen, lk, blen => by
    intro h
    simp only [cutScan] at h
    by_cases h1 : len = maxLen
    · rw [if_pos h1] at h; cases h
    · rw [if_neg h1] at h
      by_cases h2 : lk ≠ 0 ∧ b.lkey ≠ lk
      · rw [if_pos h2] at h; cases h
      · rw [if_neg h2] at h
        by_cases h3 : (if lk = 0 then b.lkey else lk) = 0
        · rw [if_pos h3] at h
          cases h
          simp only [bufSize_cons]
          omega
        · rw [if_neg h3] at h
          by_cases h4 : len + b.len > maxLen
          · rw [if_pos h4] at h
            by_cases h5 : b.len ≤ payload
            · rw [if_pos h5] at h; cases h
            · rw [if_neg h5] at h; cases h
          · rw [if_neg h4] at h
            have := cutScan_copy_le payload bs s (len + b.len) maxLen _ blen h
            simp only [bufSize_cons]
            omega

theorem cut_into_sizes (env : RdmaEnv) : ∀ (fuel : Nat) (buf toBuf : IOBuf)
    (ms ml lk : Nat) (len : Nat) (buf2 toBuf2 : IOBuf) (lk2 : Nat),
    cut_into_sglist_and_iobuf env fuel buf toBuf ms ml lk =
      some (.ok len buf2 toBuf2 lk2) →
    bufSize buf = bufSize buf2 + len ∧ bufSize toBuf2 = bufSize toBuf + len ∧
    len ≤ bufSize buf
  | 0, buf, toBuf, ms, ml, lk, len, buf2, toBuf2, lk2 => by
    intro h; cases h
  | fuel + 1, buf, toBuf, ms, ml, lk, len, buf2, toBuf2, lk2 => by
    intro h
    simp only [cut_into_sglist_and_iobuf] at h
    split at h
    · rename_i l2 k2 hscan
      have hle := cutScan_done_le env.payload buf ms 0 ml lk l2 k2 hscan
      have hc := cutn_sizes buf l2
      cases h
      refine ⟨?_, ?_, ?_⟩
      · omega
      · rw [bufSize_append]; omega
      · omega
    · rename_i blen hscan
      have hble := cutScan_copy_le env.payload buf ms 0 ml lk blen hscan
      split at h
      · cases h
      · split at h
        · cases h
        · rename_i len3 tmp2 toBuf3 lk3 hrec
          have ih := cut_into_sizes env fuel [⟨min (min blen ml) env.payload, env.poolLkey⟩]
            toBuf ms (min (min blen ml) env.payload) lk len3 tmp2 toBuf3 lk3 hrec
          have hc := cutn_sizes buf len3
          simp only [bufSize_cons, bufSize_nil] at ih
          cases h
          refine ⟨?_, ?_, ?_⟩
          · omega
          · omega
          · omega
        · cases h

/-! ## List helper lemmas -/

theorem get?_some_lt {α : Type} (l : List α) (i : Nat) (a : α)
    (h : l.get? i = some a) : i < l.length := by
  by_contra hc
  rw [List.get?_eq_none.mpr (by omega)] at h
  cases h

theorem getD_set_self {α : Type} [Inhabited α] : ∀ (l : List α) (i : Nat) (x d : α),
    i < l.length → (l.set i x).getD i d = x
  | [], i, x, d => by intro h; cases h
  | a :: t, 0, x, d => by intro _; rfl
  | a :: t, i + 1, x, d => by
    intro h
    simp only [List.set, List.getD_cons_succ]
    exact getD_set_self t i x d (by simpa using h)

theorem getD_pos_lt (l : List IOBuf) (i : Nat)
    (h : bufSize (l.getD i []) ≠ 0) : i < l.length := by
  by_contra hc
  rw [List.getD_eq_default] at h
  · exact h rfl
  · omega

theorem bufsSize_set : ∀ (l : List IOBuf) (i : Nat) (d : IOBuf),
    i < l.length →
    bufsSize (l.set i d) + bufSize (l.getD i []) = bufsSize l + bufSize d
  | [], i, d => by intro h; cases h
  | a :: t, 0, d => by
    intro _
    simp only [List.set, bufsSize, List.map_cons, List.sum_cons, List.getD_cons_zero]
    omega
  | a :: t, i + 1, d => by
    intro h
    have ih := bufsSize_set t i d (by simpa using h)
    simp only [List.set, List.getD_cons_succ, bufsSize, List.map_cons, List.sum_cons] at ih ⊢
    omega

/-! ## Loop-level accounting for DoCutFromIOBufList -/

theorem docutLoop_sizes (env : RdmaEnv) : ∀ (fuel : Nat) (st st2 : LoopSt),
    docutLoop env fuel st = some (.ok st2) →
    bufsSize st.bufs + bufSize st.toBuf = bufsSize st2.bufs + bufSize st2.toBuf ∧
    st2.total_len + bufSize st.toBuf = st.total_len + bufSize st2.toBuf
  | 0, st, st2 => by intro h; cases h
  | fuel + 1, st, st2 => by
    intro h
    simp only [docutLoop] at h
    split at h
    · split at h
      · split at h
        · cases h
          exact ⟨rfl, rfl⟩
        · have ih := docutLoop_sizes env fuel _ st2 h
          simpa using ih
      · rename_i hsz
        split at h
        · cases h
        · cases h
        · rename_i len buf2 toBuf2 lk2 heq
          have hci := cut_into_sizes env 3 (st.bufs.getD st.current [])
            st.toBuf (env.max_sge - st.sge_index) (env.payload - st.total_len)
            st.lkey len buf2 toBuf2 lk2 heq
          have hlt : st.current < st.bufs.length := getD_pos_lt _ _ hsz
          have hset := bufsSize_set st.bufs st.current buf2 hlt
          split at h
          · cases h
            exact ⟨rfl, rfl⟩
          · have ih := docutLoop_sizes env fuel _ st2 h
            simp only at ih
            omega
    · cases h
      exact ⟨rfl, rfl⟩

/-! ## Frame and flag lemmas for DoCutFromIOBufList -/

theorem docut_frame (env : RdmaEnv) (ep : RdmaEndpoint) (bufs : List IOBuf)
    (imm : Nat) (r : DoCutRes) (h : DoCutFromIOBufList env ep bufs imm = some r) :
    r.ep.window_size = ep.window_size ∧ r.ep.sbuf = ep.sbuf ∧
    r.ep.local_window_capacity = ep.local_window_capacity ∧
    r.ep.sq_current = ep.sq_current ∧ r.ep.sq_size = ep.sq_size ∧
    r.ep.new_rq_wrs = ep.new_rq_wrs ∧ r.ep.sq_sent = ep.sq_sent ∧
    r.ep.remote_window_capacity = ep.remote_window_capacity ∧
    r.ep.rbuf = ep.rbuf ∧ r.ep.rq_received = ep.rq_received := by
  simp only [DoCutFromIOBufList] at h
  split at h
  · cases h
  · split at h
    · cases h
    · cases h
      simp
    · split at h
      · cases h
        simp [finishWR]
      · cases h
        simp [finishWR]

theorem docut_ret_total (env : RdmaEnv) (ep : RdmaEndpoint) (bufs : List IOBuf)
    (imm : Nat) (r : DoCutRes) (n : Nat)
    (h : DoCutFromIOBufList env ep bufs imm = some r) (hn : r.ret = some n) :
    bufSize r.slot = n ∧ bufsSize bufs = bufsSize r.bufs + n := by
  simp only [DoCutFromIOBufList] at h
  split at h
  · cases h
  · split at h
    · cases h
    · cases h
      cases hn
    · rename_i st hloop
      have hs := docutLoop_sizes env (bufs.length + env.payload + 2) _ st hloop
      simp only [bufSize_nil] at hs
      split at h
      · cases h
        simp only at hn ⊢
        cases hn
        omega
      · cases h
        cases hn

theorem docut_post_flags (env : RdmaEnv) (ep : RdmaEndpoint) (bufs : List IOBuf)
    (imm : Nat) (r : DoCutRes) (wr : SendWR)
    (h : DoCutFromIOBufList env ep bufs imm = some r) (hp : r.posted = some wr) :
    wr.signaled = decide (ep.sq_unsignaled + 1 ≥ ep.local_window_capacity / 4) ∧
    r.ep.sq_unsignaled =
      (if ep.sq_unsignaled + 1 ≥ ep.local_window_capacity / 4 then 0
       else ep.sq_unsignaled + 1) ∧
    r.ep.local_window_capacity = ep.local_window_capacity := by
  simp only [DoCutFromIOBufList] at h
  split at h
  · cases h
  · split at h
    · cases h
    · cases h
      cases hp
    · split at h
      · cases h
        simp only [finishWR] at hp ⊢
        cases hp
        refine ⟨by simp, ?_, by simp⟩
        by_cases hge : ep.sq_unsignaled + 1 ≥ ep.local_window_capacity / 4
        · simp [hge]
        · simp [hge]
      · cases h
        cases hp

/-! ## The in-flight slot count and the window invariant -/

/-- liveSlots counts the non-empty send-ring slots, which are exactly
the in-flight sends awaiting peer credit. -/
def liveSlots (l : List IOBuf) : Nat :=
  (l.map (fun b => if bufSize b = 0 then 0 else 1)).sum

theorem liveSlots_nil : liveSlots [] = 0 := rfl

theorem liveSlots_cons (a : IOBuf) (t : List IOBuf) :
    liveSlots (a :: t) = (if bufSize a = 0 then 0 else 1) + liveSlots t := by
  simp [liveSlots]

theorem liveSlots_set_le : ∀ (l : List IOBuf) (i : Nat) (x : IOBuf),
    (∀ s, l.get? i = some s → bufSize s = 0) →
    liveSlots (l.set i x) ≤ liveSlots l + 1
  | [], i, x => by intro _; simp [liveSlots]
  | a :: t, 0, x => by
    intro h
    have ha := h a rfl
    simp only [List.set, liveSlots_cons]
    rw [if_pos ha]
    split <;> omega
  | a :: t, i + 1, x => by
    intro h
    have ih := liveSlots_set_le t i x (fun s hs => h s hs)
    simp only [List.set, liveSlots_cons]
    omega

theorem liveSlots_set_nil : ∀ (l : List IOBuf) (i : Nat) (s : IOBuf),
    l.get? i = some s → bufSize s ≠ 0 →
    liveSlots l = liveSlots (l.set i []) + 1
  | [], i, s => by intro h _; cases h
  | a :: t, 0, s => by
    intro h hs
    cases h
    have h0 : (if bufSize ([] : IOBuf) = 0 then 0 else 1) = 0 := rfl
    simp only [List.set, liveSlots_cons, h0, if_neg hs]
    omega
  | a :: t, i + 1, s => by
    intro h hs
    have ih := liveSlots_set_nil t i s h hs
    simp only [List.set, liveSlots_cons]
    omega

theorem clearAck_spec : ∀ (n : Nat) (ep ep2 : RdmaEndpoint),
    clearAckLoop n ep = some ep2 →
    ep2.window_size = ep.window_size ∧
    ep2.local_window_capacity = ep.local_window_capacity ∧
    liveSlots ep.sbuf = liveSlots ep2.sbuf + n ∧
    ep2.remote_window_capacity = ep.remote_window_capacity ∧
    ep2.rbuf = ep.rbuf ∧ ep2.rq_received = ep.rq_received ∧
    ep2.new_rq_wrs = ep.new_rq_wrs
  | 0, ep, ep2 => by
    intro h
    cases h
    exact ⟨rfl, rfl, by omega, rfl, rfl, rfl, rfl⟩
  | n + 1, ep, ep2 => by
    intro h
    simp only [clearAckLoop] at h
    split at h
    · cases h
    · rename_i s hget
      split at h
      · cases h
      · rename_i hs
        have ih := clearAck_spec n _ ep2 h
        have hlive := liveSlots_set_nil ep.sbuf ep.sq_sent s hget hs
        simp only at ih
        refine ⟨ih.1, ih.2.1, ?_, ih.2.2.2.1, ih.2.2.2.2.1, ih.2.2.2.2.2.1,
          ih.2.2.2.2.2.2⟩
        have hl := ih.2.2.1
        omega

theorem postRecvOnce_frame (env : RdmaEnv) (ep ep2 : RdmaEndpoint)
    (h : postRecvOnce env ep = some ep2) :
    ep2.window_size = ep.window_size ∧ ep2.sbuf = ep.sbuf ∧
    ep2.local_window_capacity = ep.local_window_capacity ∧
    ep2.new_rq_wrs = ep.new_rq_wrs ∧
    ep2.remote_window_capacity = ep.remote_window_capacity := by
  simp only [postRecvOnce] at h
  split at h
  · cases h
  · split at h
    · cases h
    · split at h
      · cases h
      · cases h
        simp

/-- WindowInv is the inductive invariant: the available credits plus the
in-flight sends never exceed the local window capacity. -/
def WindowInv (ep : RdmaEndpoint) : Prop :=
  ep.window_size + liveSlots ep.sbuf ≤ ep.local_window_capacity

theorem cut_window_inv (env : RdmaEnv) (ep : RdmaEndpoint) (bufs : List IOBuf)
    (res : CutRes) (ep2 : RdmaEndpoint) (bufs2 : List IOBuf)
    (h : CutFromIOBufList env ep bufs = some (res, ep2, bufs2))
    (hinv : WindowInv ep) : WindowInv ep2 := by
  simp only [CutFromIOBufList] at h
  split at h
  · cases h
    exact hinv
  · rename_i hw
    split at h
    · cases h
    · rename_i slot hget
      split at h
      · cases h
      · rename_i hslot
        split at h
        · cases h
        · rename_i r hdo
          have hf := docut_frame env { ep with new_rq_wrs := 0 } bufs
            ep.new_rq_wrs r hdo
          simp only at hf
          have hle : liveSlots (ep.sbuf.set ep.sq_current r.slot) ≤
              liveSlots ep.sbuf + 1 := by
            apply liveSlots_set_le
            intro s hs
            rw [hget] at hs
            cases hs
            simpa using hslot
          cases h
          simp only [WindowInv] at hinv ⊢
          rw [hf.1, hf.2.1, hf.2.2.1, hf.2.2.2.1]
          omega

theorem recvImmTail_window_inv (env : RdmaEnv) (ep : RdmaEndpoint)
    (rc : RdmaCompletion) (o : HCOut) (h : recvImmTail env ep rc = some o)
    (hinv : WindowInv ep) : WindowInv o.ep := by
  simp only [recvImmTail] at h
  split at h
  · cases h
  · rename_i ep1 woke hstep
    have hinv1 : WindowInv ep1 := by
      simp only [WindowInv] at hinv ⊢
      split at hstep
      · split at hstep
        · cases hstep
        · rename_i epc hclear
          have hc := clearAck_spec rc.imm ep epc hclear
          cases hstep
          simp only
          omega
      · cases hstep
        exact hinv
    split at h
    · cases h
      exact hinv1
    · rename_i ep2 hpost
      have hp := postRecvOnce_frame env ep1 ep2 hpost
      have hinv2 : WindowInv ep2 := by
        simp only [WindowInv] at hinv1 ⊢
        rw [hp.1, hp.2.1, hp.2.2.1]
        exact hinv1
      split at h
      · split at h
        · cases h
          exact hinv2
        · cases h
          exact hinv2
      · cases h
        exact hinv2

theorem hc_window_inv (env : RdmaEnv) (ep : RdmaEndpoint) (rc : RdmaCompletion)
    (o : HCOut) (h : HandleCompletion env ep rc = some o)
    (hinv : WindowInv ep) : WindowInv o.ep := by
  have hinv0 : WindowInv { ep with rdma_on := true } := hinv
  simp only [HandleCompletion] at h
  split at h
  · cases h
    exact hinv0
  · cases h
    exact hinv0
  · split at h
    · cases h
    · split at h
      · cases h
      · rename_i slot hget
        refine recvImmTail_window_inv env _ rc o h ?_
        split
        · simpa [WindowInv] using hinv
        · simpa [WindowInv] using hinv
  · exact recvImmTail_window_inv env _ rc o h hinv0
  · cases h
    exact hinv0

/-! ## Reachable endpoint states -/

/-- Reach describes the endpoint states reachable on the data path: any
freshly established state (full window, no in-flight sends), and
anything the send path or the completion path can step to.  A failed
CHECK aborts the process, so only `some` outcomes step. -/
inductive Reach : RdmaEndpoint → Prop
  | init (ep : RdmaEndpoint) (hw : ep.window_size = ep.local_window_capacity)
      (hs : liveSlots ep.sbuf = 0) : Reach ep
  | cut (ep : RdmaEndpoint) (env : RdmaEnv) (bufs : List IOBuf) (res : CutRes)
      (ep2 : RdmaEndpoint) (bufs2 : List IOBuf) (hr : Reach ep)
      (h : CutFromIOBufList env ep bufs = some (res, ep2, bufs2)) : Reach ep2
  | comp (ep : RdmaEndpoint) (env : RdmaEnv) (rc : RdmaCompletion) (o : HCOut)
      (hr : Reach ep) (h : HandleCompletion env ep rc = some o) : Reach o.ep

theorem reach_window_inv (ep : RdmaEndpoint) (h : Reach ep) : WindowInv ep := by
  induction h with
  | init ep hw hs => simp only [WindowInv]; omega
  | cut ep env bufs res ep2 bufs2 hr h ih => exact cut_window_inv env ep bufs res ep2 bufs2 h ih
  | comp ep env rc o hr h ih => exact hc_window_inv env ep rc o h ih

/-- C1: in every reachable state of the endpoint the flow-control window
satisfies 0 ≤ window_size ≤ local_window_capacity (the lower bound is
inherent to the Nat model); moreover CutFromIOBufList observes a zero
window and returns the EAGAIN retry without decrementing anything, and
the credit increment of HandleCompletion never pushes window_size above
local_window_capacity because every credited unit must clear one
non-empty in-flight slot. -/
theorem c1_window_invariant (ep : RdmaEndpoint) (h : Reach ep) :
    ep.window_size ≤ ep.local_window_capacity ∧
    (∀ (env : RdmaEnv) (bufs : List IOBuf), ep.window_size = 0 →
      CutFromIOBufList env ep bufs = some (.eagain, ep, bufs)) := by
  constructor
  · have := reach_window_inv ep h
    simp only [WindowInv] at this
    omega
  · intro env bufs h0
    simp [CutFromIOBufList, h0]

/-- Witness for c1_window_invariant at a concretely established client
endpoint (sq = rq = 16, peer advertises 16 and 16). -/
theorem c1_window_invariant_witness :
    (establishedClient ⟨4, 8, 9, true, true, true, true⟩ 16 16 16 16).window_size ≤
      (establishedClient ⟨4, 8, 9, true, true, true, true⟩ 16 16 16 16).local_window_capacity :=
  (c1_window_invariant _ (Reach.init _ (by decide) (by decide))).1

/-! ## C2: handshake window negotiation -/

/-- Counterexample for C2: with the server configured sq = 32, rq = 16
accepting a request advertising rq = sq = 64, InitializeFromAccept
leaves remote_window_capacity = min(16, 64) = 16, not 64 as the claim
and the spec scenario state. -/
theorem c2_server_remote_window_counterexample :
    (acceptApply (mkEndpoint 32 16)
        ⟨0, List.replicate RANDOM_LENGTH 0, 64, 64⟩).remote_window_capacity = 16 ∧
    ¬ (acceptApply (mkEndpoint 32 16)
        ⟨0, List.replicate RANDOM_LENGTH 0, 64, 64⟩).remote_window_capacity = 64 := by
  constructor
  · decide
  · decide

/-- C2 amended: the negotiation takes pairwise minima exactly as the
claim states them in general, and the concrete scenario works out to
client local = window = 16, client remote = 32, server local = 32 and
server remote = 16 (the claim said 64 for the last value). -/
theorem c2_window_negotiation_amended (csq crq prq psq ssq srq sid : Nat)
    (nonce : List Nat) (arq asq : Nat) :
    ((connectingApply (mkEndpoint csq crq) ⟨prq, psq⟩).local_window_capacity
        = min (mkEndpoint csq crq).sq_size prq ∧
      (connectingApply (mkEndpoint csq crq) ⟨prq, psq⟩).window_size
        = min (mkEndpoint csq crq).sq_size prq ∧
      (connectingApply (mkEndpoint csq crq) ⟨prq, psq⟩).remote_window_capacity
        = min (mkEndpoint csq crq).rq_size psq) ∧
    ((acceptApply (mkEndpoint ssq srq) ⟨sid, nonce, arq, asq⟩).local_window_capacity
        = min (mkEndpoint ssq srq).sq_size arq ∧
      (acceptApply (mkEndpoint ssq srq) ⟨sid, nonce, arq, asq⟩).window_size
        = min (mkEndpoint ssq srq).sq_size arq ∧
      (acceptApply (mkEndpoint ssq srq) ⟨sid, nonce, arq, asq⟩).remote_window_capacity
        = min (mkEndpoint ssq srq).rq_size asq) ∧
    ((connectingApply (mkEndpoint 64 64) ⟨16, 32⟩).local_window_capacity = 16 ∧
      (connectingApply (mkEndpoint 64 64) ⟨16, 32⟩).window_size = 16 ∧
      (connectingApply (mkEndpoint 64 64) ⟨16, 32⟩).remote_window_capacity = 32 ∧
      (acceptApply (mkEndpoint 32 16)
          ⟨sid, nonce, 64, 64⟩).local_window_capacity = 32 ∧
      (acceptApply (mkEndpoint 32 16)
          ⟨sid, nonce, 64, 64⟩).remote_window_capacity = 16) := by
  refine ⟨?_, ?_, ?_⟩
  · simp only [connectingApply, mkEndpoint]
    split_ifs <;> simp_all <;> omega
  · simp only [acceptApply, mkEndpoint]
    split_ifs <;> simp_all <;> omega
  · simp only [connectingApply, acceptApply, mkEndpoint]
    norm_num

/-! ## C3: pure-ACK emission threshold -/

/-- Counterexample for C3: with remote_window_capacity = 16, nine data
recv completions produce no pure ACK at all and leave new_rq_wrs = 9,
because the code compares the pre-increment value of new_rq_wrs against
remote_window_capacity / 2. -/
theorem c3_pure_ack_ninth_counterexample :
    (runComps ⟨4, 8, 9, true, true, true, true⟩
        (establishedClient ⟨4, 8, 9, true, true, true, true⟩ 16 16 16 16)
        (List.replicate 9 ⟨.crecv, 1, 0⟩)).map
      (fun p => (p.2, p.1.new_rq_wrs)) = some ([], 9) ∧
    ¬ (runComps ⟨4, 8, 9, true, true, true, true⟩
        (establishedClient ⟨4, 8, 9, true, true, true, true⟩ 16 16 16 16)
        (List.replicate 9 ⟨.crecv, 1, 0⟩)).map
      (fun p => (p.2, p.1.new_rq_wrs)) = some ([9], 0) := by
  constructor
  · decide
  · decide

/-- C3 amended: with remote_window_capacity = 16 and no outbound sends,
the pure ACK is emitted on the tenth data recv completion (the first
whose pre-increment new_rq_wrs exceeds remote_window_capacity / 2 = 8),
it carries imm = 10, and new_rq_wrs is reset to 0. -/
theorem c3_pure_ack_tenth_amended :
    (runComps ⟨4, 8, 9, true, true, true, true⟩
        (establishedClient ⟨4, 8, 9, true, true, true, true⟩ 16 16 16 16)
        (List.replicate 10 ⟨.crecv, 1, 0⟩)).map
      (fun p => (p.2, p.1.new_rq_wrs)) = some ([10], 0) ∧
    (runComps ⟨4, 8, 9, true, true, true, true⟩
        (establishedClient ⟨4, 8, 9, true, true, true, true⟩ 16 16 16 16)
        (List.replicate 9 ⟨.crecv, 1, 0⟩)).map (fun p => p.2) = some [] := by
  constructor
  · decide
  · decide

/-! ## C4: SIGNALED period -/

/-- envOkW is a concrete benign environment used by several witnesses:
max_sge 4, payload 8, pool lkey 9, and every external call succeeding. -/
def envOkW : RdmaEnv := ⟨4, 8, 9, true, true, true, true⟩

/-- Counterexample for C4: with local_window_capacity = 18 the fourth
posted send carries SIGNALED (the code fires at sq_unsignaled reaching
18 / 4 = 4), although 4 is not a multiple of the claimed period
ceil(18 / 4) = 5. -/
theorem c4_signaled_ceil_counterexample :
    (runDoCut envOkW (establishedClient envOkW 18 18 18 18)
        (List.replicate 4 ([[⟨1, 7⟩]], 0))).map
      (fun p => p.2.map SendWR.signaled) = some [false, false, false, true] ∧
    (establishedClient envOkW 18 18 18 18).local_window_capacity = 18 ∧
    (18 + 3) / 4 = 5 ∧ ¬ (5 ∣ 4) := by
  refine ⟨by decide, by decide, by decide, by decide⟩

theorem mod_succ_flag (c j q : Nat) (hc : c = j % max 1 q) :
    ((c + 1 ≥ q) ↔ (max 1 q ∣ (j + 1))) ∧
    ((if c + 1 ≥ q then (0 : Nat) else c + 1) = (j + 1) % max 1 q) := by
  rcases Nat.eq_zero_or_pos q with hq | hq
  · subst hq
    have hm : max 1 0 = 1 := rfl
    rw [hm] at hc ⊢
    rw [Nat.mod_one] at hc
    subst hc
    constructor
    · exact iff_of_true (by omega) (one_dvd _)
    · rw [if_pos (by omega), Nat.mod_one]
  · have hm : max 1 q = q := by omega
    rw [hm] at hc ⊢
    have hlt : j % q < q := Nat.mod_lt _ hq
    have hdm := Nat.div_add_mod j q
    by_cases hcase : c + 1 = q
    · have hmul : q * (j / q + 1) = q * (j / q) + q := Nat.mul_succ q (j / q)
      have h1 : j + 1 = q * (j / q + 1) := by omega
      constructor
      · exact iff_of_true (by omega) ⟨j / q + 1, h1⟩
      · rw [if_pos (by omega), h1, Nat.mul_mod_right]
    · have hlt2 : c + 1 < q := by omega
      have h2 : (j + 1) % q = c + 1 := by
        have h3 : j + 1 = (c + 1) + q * (j / q) := by omega
        rw [h3, Nat.add_mul_mod_self_left]
        exact Nat.mod_eq_of_lt hlt2
      constructor
      · constructor
        · intro hge
          exact absurd hge (by omega)
        · intro hdvd
          exfalso
          rcases hdvd with ⟨e, he⟩
          have h4 : (j + 1) % q = 0 := by rw [he, Nat.mul_mod_right]
          omega
      · rw [if_neg (by omega)]
        exact h2.symm

theorem runDoCut_signaled (env : RdmaEnv) : ∀ (inputs : List (List IOBuf × Nat))
    (ep ep2 : RdmaEndpoint) (wrs : List SendWR) (j : Nat),
    ep.sq_unsignaled = j % max 1 (ep.local_window_capacity / 4) →
    runDoCut env ep inputs = some (ep2, wrs) →
    ∀ k, k < wrs.length → (wrs.getD k default).signaled =
      decide (max 1 (ep.local_window_capacity / 4) ∣ (j + k + 1))
  | [], ep, ep2, wrs, j => by
    intro hc h k hk
    cases h
    simp at hk
  | (bufs, imm) :: rest, ep, ep2, wrs, j => by
    intro hc h k hk
    simp only [runDoCut] at h
    split at h
    · cases h
    · rename_i r hdo
      split at h
      · cases h
      · rename_i wr hp
        cases hrest : runDoCut env r.ep rest with
        | none =>
          rw [hrest] at h
          cases h
        | some p =>
          obtain ⟨ep3, wrs3⟩ := p
          rw [hrest] at h
          cases h
          have hflag := docut_post_flags env ep bufs imm r wr hdo hp
          have hmod := mod_succ_flag ep.sq_unsignaled j
            (ep.local_window_capacity / 4) hc
          cases k with
          | zero =>
            simp only [List.getD_cons_zero]
            rw [hflag.1]
            exact decide_eq_decide.mpr (by simpa using hmod.1)
          | succ k =>
            simp only [List.getD_cons_succ]
            have hcap := hflag.2.2
            have hnext : r.ep.sq_unsignaled =
                (j + 1) % max 1 (r.ep.local_window_capacity / 4) := by
              rw [hcap, hflag.2.1, ← hmod.2]
            have hk2 : k < wrs3.length := by
              simpa using hk
            have ih := runDoCut_signaled env rest r.ep _ _ (j + 1)
              hnext hrest k hk2
            have harith : j + (k + 1) + 1 = (j + 1) + k + 1 := by omega
            rw [harith, ← hcap]
            exact ih

/-- C4 amended: starting from sq_unsignaled = 0, the k-th work request
posted through DoCutFromIOBufList carries SIGNALED exactly when k is a
multiple of max(1, floor(local_window_capacity / 4)): sq_unsignaled is
incremented on each post, the flag fires when it reaches
local_window_capacity / 4 (floor division, not the ceiling the claim
stated), and the counter is then reset to zero. -/
theorem c4_signaled_period_amended (env : RdmaEnv) (ep ep2 : RdmaEndpoint)
    (inputs : List (List IOBuf × Nat)) (wrs : List SendWR)
    (h0 : ep.sq_unsignaled = 0)
    (hrun : runDoCut env ep inputs = some (ep2, wrs))
    (k : Nat) (hk : k < wrs.length) :
    (wrs.getD k default).signaled =
      decide (max 1 (ep.local_window_capacity / 4) ∣ (k + 1)) := by
  have h := runDoCut_signaled env inputs ep ep2 wrs 0
    (by simp [h0]) hrun k hk
  simpa using h

/-- Witness for c4_signaled_period_amended on a single post with
local_window_capacity = 16: the first posted work request is not
signaled, matching that 1 is not a multiple of 16 / 4 = 4. -/
theorem c4_signaled_period_witness :
    (([⟨0, 1, 1, true, true, false⟩] : List SendWR).getD 0 default).signaled =
      decide (max 1
        ((establishedClient envOkW 16 16 16 16).local_window_capacity / 4) ∣ (0 + 1)) :=
  c4_signaled_period_amended envOkW (establishedClient envOkW 16 16 16 16)
    { establishedClient envOkW 16 16 16 16 with sq_unsignaled := 1 }
    [([[⟨1, 7⟩]], 0)] [⟨0, 1, 1, true, true, false⟩]
    (by decide) (by decide) 0 (by decide)

/-! ## C5: private data serialization -/

/-- reqC5 is a concrete connect request used to exhibit the
out-of-bounds store of Serialize. -/
def reqC5 : RdmaConnectRequestData :=
  ⟨81985529216486895, (List.range 16).map (fun i => i + 10), 258, 772⟩

/-- respC5 is a concrete connect response used to exhibit the
out-of-bounds store of Serialize. -/
def respC5 : RdmaConnectResponseData := ⟨5, 65537⟩

/-- C5: Serialize stores the 32-bit size fields through uint64_t
pointers.  At the concrete request, the write trace touches offset 32
(and up to 35) although Length() = 32, and the response write trace
touches offset 8 (and up to 11) although Length() = 8 — four bytes past
the buffer the callers allocate with exactly Length() bytes.  Interior
behaviour is otherwise as specified: on a little-endian host the fields
land big-endian at their offsets and Deserialize recovers the original
value. -/
theorem c5_serialize_out_of_bounds :
    (32 ∈ (serializeRequestWrites reqC5).map Prod.fst ∧
      35 ∈ (serializeRequestWrites reqC5).map Prod.fst ∧
      requestLength = 32 ∧
      deserializeRequest (applyWrites (fun _ => 0) (serializeRequestWrites reqC5))
        = reqC5 ∧
      (List.range 8).map (applyWrites (fun _ => 0) (serializeRequestWrites reqC5))
        = [1, 35, 69, 103, 137, 171, 205, 239] ∧
      (List.range 4).map (fun i =>
          applyWrites (fun _ => 0) (serializeRequestWrites reqC5) (24 + i))
        = [0, 0, 1, 2] ∧
      (List.range 4).map (fun i =>
          applyWrites (fun _ => 0) (serializeRequestWrites reqC5) (28 + i))
        = [0, 0, 3, 4]) ∧
    (8 ∈ (serializeResponseWrites respC5).map Prod.fst ∧
      11 ∈ (serializeResponseWrites respC5).map Prod.fst ∧
      responseLength = 8 ∧
      deserializeResponse (applyWrites (fun _ => 0) (serializeResponseWrites respC5))
        = respC5) := by
  refine ⟨⟨by decide, by decide, by decide, by decide, by decide, by decide, by decide⟩,
    by decide, by decide, by decide, by decide⟩

/-! ## C6 and C10: the CutFromIOBufList contract -/

/-- C6: CutFromIOBufList returns the EAGAIN retry indication exactly
when window_size is 0 at entry; otherwise a non-negative return is
exactly the byte count moved out of the application buffers and now
held in sbuf[sq_current]. -/
theorem c6_cut_return_contract (env : RdmaEnv) (ep : RdmaEndpoint)
    (bufs : List IOBuf) (res : CutRes) (ep2 : RdmaEndpoint) (bufs2 : List IOBuf)
    (h : CutFromIOBufList env ep bufs = some (res, ep2, bufs2)) :
    (res = .eagain ↔ ep.window_size = 0) ∧
    (∀ n, res = .ok n →
      bufSize (ep2.sbuf.getD ep.sq_current []) = n ∧
      bufsSize bufs = bufsSize bufs2 + n) := by
  simp only [CutFromIOBufList] at h
  split at h
  · rename_i hw
    cases h
    refine ⟨iff_of_true rfl hw, ?_⟩
    intro n hn
    cases hn
  · rename_i hw
    split at h
    · cases h
    · rename_i slot hget
      split at h
      · cases h
      · rename_i hslot
        split at h
        · cases h
        · rename_i r hdo
          have hf := docut_frame env { ep with new_rq_wrs := 0 } bufs
            ep.new_rq_wrs r hdo
          simp only at hf
          have hlen : ep.sq_current < ep.sbuf.length := get?_some_lt _ _ _ hget
          cases h
          refine ⟨?_, ?_⟩
          · apply iff_of_false _ hw
            intro he
            rcases hr : r.ret with _ | m <;> rw [hr] at he <;> simp at he
          · intro n hn
            rcases hr : r.ret with _ | m
            · rw [hr] at hn
              simp at hn
            · rw [hr] at hn
              simp only at hn
              cases hn
              have ht := docut_ret_total env { ep with new_rq_wrs := 0 } bufs
                ep.new_rq_wrs r _ hdo hr
              constructor
              · simp only [hf.2.1, hf.2.2.2.1]
                rw [getD_set_self ep.sbuf ep.sq_current r.slot [] hlen]
                exact ht.1
              · exact ht.2

/-- epEstW is a concretely established endpoint used by witnesses. -/
def epEstW : RdmaEndpoint := establishedClient envOkW 16 16 16 16

/-- bufsW is a one-buffer application list of 5 registered bytes. -/
def bufsW : List IOBuf := [[⟨5, 7⟩]]

/-- epCutW is the endpoint after one CutFromIOBufList on epEstW: the
slot holds the 5 bytes, the ring index advanced, the window dropped. -/
def epCutW : RdmaEndpoint :=
  { epEstW with sbuf := (List.replicate 16 ([] : IOBuf)).set 0 [⟨5, 7⟩],
                sq_current := 1, window_size := 15, sq_unsignaled := 1 }

/-- Witness for c6_cut_return_contract: a concrete call moving 5 bytes. -/
theorem c6_cut_return_contract_witness :
    bufSize (epCutW.sbuf.getD epEstW.sq_current []) = 5 ∧
    bufsSize bufsW = bufsSize [([] : IOBuf)] + 5 :=
  (c6_cut_return_contract envOkW epEstW bufsW (.ok 5) epCutW [[]]
    (by decide)).2 5 rfl

/-- envFailW is envOkW with ibv_post_send failing. -/
def envFailW : RdmaEnv := ⟨4, 8, 9, true, false, true, true⟩

/-- C10: whenever CutFromIOBufList runs with a positive window, it
advances sq_current modulo sq_size, leaves the swapped new_rq_wrs at
zero, and decrements window_size — including when DoCutFromIOBufList
fails and -1 is returned: nothing is rolled back on the failure path. -/
theorem c10_cut_failure_no_rollback (env : RdmaEnv) (ep : RdmaEndpoint)
    (bufs : List IOBuf) (res : CutRes) (ep2 : RdmaEndpoint) (bufs2 : List IOBuf)
    (h : CutFromIOBufList env ep bufs = some (res, ep2, bufs2))
    (hw : 0 < ep.window_size) :
    ep2.sq_current =
      (if ep.sq_current + 1 = ep.sq_size then 0 else ep.sq_current + 1) ∧
    ep2.new_rq_wrs = 0 ∧
    ep2.window_size = ep.window_size - 1 := by
  simp only [CutFromIOBufList] at h
  split at h
  · rename_i hw0
    exact absurd hw0 (by omega)
  · split at h
    · cases h
    · rename_i slot hget
      split at h
      · cases h
      · split at h
        · cases h
        · rename_i r hdo
          have hf := docut_frame env { ep with new_rq_wrs := 0 } bufs
            ep.new_rq_wrs r hdo
          simp only at hf
          cases h
          refine ⟨?_, ?_, ?_⟩
          · simp only
            rw [hf.2.2.2.1, hf.2.2.2.2.1]
          · simp only
            rw [hf.2.2.2.2.2.1]
          · simp only
            rw [hf.1]

/-- Witness for c10_cut_failure_no_rollback: with ibv_post_send failing
the call returns -1 yet the ring index, the swapped ACK credit and the
window credit are all consumed. -/
theorem c10_cut_failure_no_rollback_witness :
    epCutW.sq_current =
      (if epEstW.sq_current + 1 = epEstW.sq_size then 0 else epEstW.sq_current + 1) ∧
    epCutW.new_rq_wrs = 0 ∧
    epCutW.window_size = epEstW.window_size - 1 :=
  c10_cut_failure_no_rollback envFailW epEstW bufsW .fatal epCutW [[]]
    (by decide) (by decide)

/-! ## C7: rejections in InitializeFromAccept -/

/-- C7: SetFailed can only come from the dispatcher-subscription arm,
and each attack-suspicious rejection (unknown sid, socket without an
RDMA endpoint, nonce mismatch, duplicate CM) returns -1 leaving the
targeted socket exactly as it was and unfailed. -/
theorem c7_accept_rejections_safe (aenv : AcceptEnv)
    (sockets : Nat → Option SocketObj) (data : Option (List Nat)) (len : Nat) :
    ((InitializeFromAccept aenv sockets data len).setFailed = true →
      aenv.dispatcherOk = false) ∧
    (∀ bytes, data = some bytes → 0 < len →
      sockets (reqOfBytes bytes).sid = none →
      InitializeFromAccept aenv sockets data len = ⟨-1, none, false⟩) ∧
    (∀ bytes s, data = some bytes → 0 < len →
      sockets (reqOfBytes bytes).sid = some s → s.ep = none →
      InitializeFromAccept aenv sockets data len = ⟨-1, some s, false⟩) ∧
    (∀ bytes s ep, data = some bytes → 0 < len →
      sockets (reqOfBytes bytes).sid = some s → s.ep = some ep →
      (ep.rand_str ≠ (reqOfBytes bytes).rand_str ∨ ep.hasRcm = true) →
      InitializeFromAccept aenv sockets data len = ⟨-1, some s, false⟩) := by
  refine ⟨?_, ?_, ?_, ?_⟩
  · intro hsf
    simp only [InitializeFromAccept] at hsf
    split at hsf
    · simp at hsf
    · split at hsf
      · simp at hsf
      · split at hsf
        · simp at hsf
        · split at hsf
          · simp at hsf
          · split at hsf
            · simp at hsf
            · split at hsf
              · simp at hsf
              · split at hsf
                · rename_i hnd
                  simpa using hnd
                · split at hsf <;> simp at hsf
  · intro bytes hd hlen hnone
    subst hd
    have hl0 : ¬ len = 0 := by omega
    simp [InitializeFromAccept, hl0, hnone]
  · intro bytes s hd hlen hs hep
    subst hd
    have hl0 : ¬ len = 0 := by omega
    simp [InitializeFromAccept, hl0, hs, hep]
  · intro bytes s ep hd hlen hs hep hrej
    subst hd
    have hl0 : ¬ len = 0 := by omega
    rcases hrej with hne | hrcm
    · simp [InitializeFromAccept, hl0, hs, hep, hne]
    · by_cases hne2 : ep.rand_str ≠ (reqOfBytes bytes).rand_str
      · simp [InitializeFromAccept, hl0, hs, hep, hne2]
      · simp [InitializeFromAccept, hl0, hs, hep, hne2, hrcm]

/-- bytesC7 is a 32-byte connect request on the wire: sid 1, a nonce of
sixteen 5 bytes, rq 2 and sq 3, all big-endian. -/
def bytesC7 : List Nat :=
  [0, 0, 0, 0, 0, 0, 0, 1] ++ List.replicate 16 5 ++ [0, 0, 0, 2] ++ [0, 0, 0, 3]

/-- sockC7 is a socket whose endpoint captured an all-zero nonce. -/
def sockC7 : SocketObj := ⟨some (mkEndpoint 16 16), false⟩

/-- socketsC7 resolves sid 1 to sockC7 and nothing else. -/
def socketsC7 : Nat → Option SocketObj :=
  fun i => if i = 1 then some sockC7 else none

/-- Witness for c7_accept_rejections_safe: a request whose nonce does
not match is discarded with the socket untouched and not failed. -/
theorem c7_accept_rejections_safe_witness :
    InitializeFromAccept ⟨true, true⟩ socketsC7 (some bytesC7) 32 =
      ⟨-1, some sockC7, false⟩ :=
  (c7_accept_rejections_safe ⟨true, true⟩ socketsC7 (some bytesC7) 32).2.2.2
    bytesC7 sockC7 (mkEndpoint 16 16) rfl (by omega) (by decide) (by decide)
    (Or.inl (by decide))

/-! ## C8: magic mismatch falls back to plain TCP -/

/-- C8: with 20 bytes buffered whose first four differ from RDMA, the
UNINITIALIZED server handshake appends the received bytes unchanged to
the socket read buffer, clears the handshake buffer, turns rdma_state
off and returns the (positive) read buffer size. -/
theorem c8_magic_mismatch_fallback (henv : HsEnv) (junk : Nat → Nat)
    (st : HsState) (h20 : st.hs_buf.length = HELLO_LENGTH)
    (hm : (List.range MAGIC_LENGTH).map (fun i => st.hs_buf.getD i 0) ≠ MAGIC_STR) :
    handshakeAtServerUninit henv st junk =
      (.bytes (st.read_buf.length + HELLO_LENGTH),
       { st with read_buf := st.read_buf ++ st.hs_buf, hs_buf := [],
                 rdma_state := .rdmaOff }) ∧
    0 < st.read_buf.length + HELLO_LENGTH := by
  have hlen20 : st.hs_buf.length = 20 := by
    rw [h20]
    rfl
  have htmp : (List.range MAGIC_LENGTH).map
      (fun i => if i < st.hs_buf.length then st.hs_buf.getD i 0 else junk i) =
      (List.range MAGIC_LENGTH).map (fun i => st.hs_buf.getD i 0) := by
    apply List.map_congr_left
    intro i hi
    have hi4 : i < 4 := by
      have := List.mem_range.mp hi
      simpa [MAGIC_LENGTH] using this
    rw [if_pos (by omega)]
  constructor
  · simp only [handshakeAtServerUninit]
    rw [if_pos (by rw [htmp]; exact hm)]
    rw [Prod.mk.injEq]
    constructor
    · rw [List.length_append, hlen20]
      rfl
    · rfl
  · have : HELLO_LENGTH = 20 := rfl
    omega

/-- hsStW is a handshake state with 20 buffered bytes starting HTTP. -/
def hsStW : HsState :=
  ⟨.UNINITIALIZED, 72 :: 84 :: 84 :: 80 :: List.replicate 16 46, [],
   .unknown, List.replicate 16 0, false⟩

/-- Witness for c8_magic_mismatch_fallback at the HTTP-prefixed input. -/
theorem c8_magic_mismatch_fallback_witness :
    handshakeAtServerUninit ⟨true, true⟩ hsStW (fun _ => 0) =
      (.bytes (hsStW.read_buf.length + HELLO_LENGTH),
       { hsStW with read_buf := hsStW.read_buf ++ hsStW.hs_buf, hs_buf := [],
                    rdma_state := .rdmaOff }) ∧
    0 < hsStW.read_buf.length + HELLO_LENGTH :=
  c8_magic_mismatch_fallback ⟨true, true⟩ (fun _ => 0) hsStW (by decide) (by decide)

/-! ## C9: a partial hello is processed immediately -/

/-- hsTick5W is one server handshake tick in UNINITIALIZED with only
five bytes readable: the four magic bytes and a single nonce byte. -/
def hsTick5W : HsRet × HsState :=
  handshakeTickServer ⟨true, true⟩ [82, 68, 77, 65, 99]
    ⟨.UNINITIALIZED, [], [], .unknown, List.replicate 16 0, false⟩ (fun _ => 0)

/-- C9: the tick does return the retry indication, but the hello has
already been acted upon with only 5 of the 20 bytes present: the
handshake buffer is cleared, the state advances to HELLO_S, and the
captured nonce consists of the one received byte followed by fifteen
bytes of uninitialised stack memory (zeros here), contradicting the
claim that the hello is processed only once 20 bytes are buffered. -/
theorem c9_partial_hello_processed :
    hsTick5W.2.status = .HELLO_S ∧ hsTick5W.1 = .retry ∧
    hsTick5W.2.hs_buf = [] ∧
    hsTick5W.2.rand_str = 99 :: List.replicate 15 0 := by
  refine ⟨by decide, by decide, by decide, by decide⟩
